import Mathlib

/-!
Shallow embedding of the hx711py driver (src/hx711.py, the hardware-backed
class, and src/emulated_hx711.py, the simulated class) together with proofs
about its aggregation, calibration and two's-complement conversion logic.

Modelling conventions:
* Python ints are `ℤ` (or `ℕ` where the value is provably non-negative);
  sample values and the results of the averaging routines are `ℚ`
  (Python float division on integer samples is exact rational division
  for the quantities considered here).
* The bit-banged serial acquisition (`read_raw_bytes` driving GPIO lines,
  resp. `generate_fake_sample` built on wall-clock time and `random`) is the
  external sample source; it is abstracted as a stream `s : ℕ → ℚ` of raw
  sample values, and each `read_long` consumes the next element of the
  stream.  The index of the next unread element is kept in the driver state
  (`idx`), so the number of samples acquired by a call is visible as the
  change of `idx`.
* A Python method that can `raise` is modelled as returning
  `Except String α × State`: the state component is the object state at the
  moment the method returned or raised (a raise leaves all fields already
  assigned in place, exactly as in Python).
* The emulated class never raises; its `print` warnings are modelled as
  explicitly returned messages.
-/

/-- Decidable equality for `Except`, used to evaluate concrete runs. -/
instance instDecEqExcept {ε α : Type} [DecidableEq ε] [DecidableEq α] :
    DecidableEq (Except ε α) := fun a b =>
  match a, b with
  | Except.error e, Except.error f =>
      if h : e = f then Decidable.isTrue (congrArg Except.error h)
      else Decidable.isFalse (fun hh => h (Except.error.inj hh))
  | Except.error _, Except.ok _ => Decidable.isFalse (fun hh => Except.noConfusion hh)
  | Except.ok _, Except.error _ => Decidable.isFalse (fun hh => Except.noConfusion hh)
  | Except.ok v, Except.ok w =>
      if h : v = w then Decidable.isTrue (congrArg Except.ok h)
      else Decidable.isFalse (fun hh => h (Except.ok.inj hh))

/-- `value_list.sort()` in Python: sort ascending (stability is irrelevant for
scalar rational values, so any ascending sort is a faithful model). -/
def sortAsc (l : List ℚ) : List ℚ :=
  l.insertionSort (fun a b => a ≤ b)

/-- Python `str.upper()` as used by the format check (the format strings are
ASCII): uppercase every lowercase ASCII letter. -/
def pyUpper (s : String) : String :=
  String.mk (s.data.map (fun c =>
    if 97 <= c.toNat && c.toNat <= 122 then Char.ofNat (c.toNat - 32) else c))

/-- `int(n * 0.2)`: the trim amount used by `read_average`.  For a
non-negative integer `n` this is the floor of `n * 0.2`, and `0.2` is exactly
`2/10` as a rational. -/
def pyTrim (n : ℕ) : ℕ :=
  (Rat.floor ((n : ℚ) * (2 / 10))).toNat

/-- `HX711.convert_to_twos_complement_24_bit` (src/emulated_hx711.py):
saturating encoder from a signed integer to the 24-bit two's-complement
representation.  The result is always a non-negative 24-bit value, so it is
returned as `ℕ`; Python's `&` on non-negative ints is `Nat.land`. -/
def convert_to_twos_complement_24_bit (input_value : ℤ) : ℕ :=
  if input_value ≥ 0x7fffff then 0x7fffff
  else if input_value ≥ 0 then input_value.toNat &&& 0x7fffff
  else
    -- saturate below, then re-encode: diff = input_value + 0x800000
    let clamped := if input_value < -0x800000 then -0x800000 else input_value
    let diff := clamped + 0x800000
    0x800000 + diff.toNat

/-- `HX711.convert_from_twos_complement_24_bit` (both files): decoder from
the non-negative 24-bit representation back to a signed integer. -/
def convert_from_twos_complement_24_bit (input_value : ℕ) : ℤ :=
  -((input_value &&& 0x800000 : ℕ) : ℤ) + ((input_value &&& 0x7fffff : ℕ) : ℤ)

theorem pyTrim_eq_div_five (n : ℕ) : pyTrim n = n / 5 := by
  have hq : Rat.floor ((n : ℚ) * (2 / 10)) = ⌊(n : ℚ) * (2 / 10)⌋ := by
    rw [Rat.floor_def', Rat.floor_def]
  have h : (n : ℚ) * (2 / 10) = (n : ℚ) / ((5 : ℕ) : ℚ) := by push_cast; ring
  rw [pyTrim, hq, Int.floor_toNat, h, Nat.floor_div_nat, Nat.floor_natCast]

theorem land_two_pow_23 (d : ℕ) (hd : d < 0x800000) :
    (0x800000 + d) &&& 0x800000 = 0x800000 := by
  have h1 : (0x800000 : ℕ) = 2 ^ 23 := by norm_num
  have h2 : (2 ^ 23 + d) &&& 2 ^ 23 = 2 ^ 23 := by
    have htb : Nat.testBit (2 ^ 23 + d) 23 = true := by
      rw [Nat.testBit_to_div_mod]
      have hdiv : (2 ^ 23 + d) / 2 ^ 23 = 1 := by omega
      rw [hdiv]
      decide
    calc (2 ^ 23 + d) &&& 2 ^ 23
        = (Nat.testBit (2 ^ 23 + d) 23).toNat * 2 ^ 23 := Nat.and_two_pow _ 23
      _ = 2 ^ 23 := by rw [htb]; simp
  rw [h1] at hd ⊢
  exact h2

theorem land_mask_23 (d : ℕ) (hd : d < 0x800000) :
    (0x800000 + d) &&& 0x7fffff = d := by
  have h1 : (0x7fffff : ℕ) = 2 ^ 23 - 1 := by norm_num
  have h2 : (0x800000 : ℕ) = 2 ^ 23 := by norm_num
  rw [h1, h2, Nat.and_pow_two_sub_one_eq_mod]
  omega

theorem land_mask_small (x : ℕ) (hx : x < 0x800000) : x &&& 0x7fffff = x := by
  have h1 : (0x7fffff : ℕ) = 2 ^ 23 - 1 := by norm_num
  rw [h1, Nat.and_pow_two_sub_one_eq_mod]
  omega

theorem land_high_small (x : ℕ) (hx : x < 0x800000) : x &&& 0x800000 = 0 := by
  have h2 : (0x800000 : ℕ) = 2 ^ 23 := by norm_num
  have htb : Nat.testBit x 23 = false := Nat.testBit_lt_two_pow (by omega)
  calc x &&& 0x800000 = (Nat.testBit x 23).toNat * 2 ^ 23 := by
        rw [h2]; exact Nat.and_two_pow _ 23
    _ = 0 := by rw [htb]; simp

/-- C3: for every integer x in [-0x800000, 0x7FFFFF], decoding the 24-bit
two's-complement encoding of x gives back x:
`convert_from_twos_complement_24_bit (convert_to_twos_complement_24_bit x) = x`. -/
theorem twos_complement_round_trip (x : ℤ)
    (hlo : -0x800000 ≤ x) (hhi : x ≤ 0x7fffff) :
    convert_from_twos_complement_24_bit (convert_to_twos_complement_24_bit x) = x := by
  unfold convert_to_twos_complement_24_bit convert_from_twos_complement_24_bit
  by_cases htop : x ≥ 0x7fffff
  · have hx : x = 0x7fffff := le_antisymm hhi htop
    rw [if_pos htop]
    rw [land_high_small 0x7fffff (by norm_num), land_mask_small 0x7fffff (by norm_num)]
    omega
  · rw [if_neg htop]
    by_cases hpos : x ≥ 0
    · rw [if_pos hpos]
      have hxlt : x.toNat < 0x800000 := by omega
      rw [land_mask_small _ hxlt, land_high_small _ hxlt, land_mask_small _ hxlt]
      omega
    · rw [if_neg hpos]
      have hcl : ¬ x < -0x800000 := by omega
      simp only [if_neg hcl]
      have hd : (x + 0x800000).toNat < 0x800000 := by omega
      rw [land_two_pow_23 _ hd, land_mask_23 _ hd]
      omega

/-- C3 witness: the round trip evaluated at the concrete input -12345. -/
theorem twos_complement_round_trip_witness :
    -0x800000 ≤ (-12345 : ℤ) ∧ (-12345 : ℤ) ≤ 0x7fffff ∧
    convert_from_twos_complement_24_bit (convert_to_twos_complement_24_bit (-12345)) = -12345 :=
  ⟨by decide, by decide, twos_complement_round_trip (-12345) (by decide) (by decide)⟩

/-- C4: the encoder saturates at the 24-bit bounds: for every k > 0,
`encode (0x7FFFFF + k) = 0x7FFFFF`, and `encode (-0x800000 - k)` is the
encoding of -0x800000 (the representation 0x800000, which decodes to
-0x800000). -/
theorem twos_complement_saturation (k : ℤ) (hk : 0 < k) :
    convert_to_twos_complement_24_bit (0x7fffff + k) = 0x7fffff ∧
    convert_to_twos_complement_24_bit (-0x800000 - k) =
      convert_to_twos_complement_24_bit (-0x800000) ∧
    convert_from_twos_complement_24_bit
      (convert_to_twos_complement_24_bit (-0x800000 - k)) = -0x800000 := by
  have henc : convert_to_twos_complement_24_bit (-0x800000 - k) = 0x800000 := by
    unfold convert_to_twos_complement_24_bit
    rw [if_neg (by omega), if_neg (by omega), if_pos (by omega)]
    norm_num
  refine ⟨?_, ?_, ?_⟩
  · unfold convert_to_twos_complement_24_bit
    rw [if_pos (by omega)]
  · rw [henc]
    unfold convert_to_twos_complement_24_bit
    rw [if_neg (by norm_num), if_neg (by norm_num), if_neg (by norm_num)]
    norm_num
  · rw [henc]
    unfold convert_from_twos_complement_24_bit
    have h1 : (0x800000 : ℕ) &&& 0x800000 = 0x800000 := by
      have h := land_two_pow_23 0 (by norm_num)
      rwa [Nat.add_zero] at h
    have h2 : (0x800000 : ℕ) &&& 0x7fffff = 0 := by
      have h := land_mask_23 0 (by norm_num)
      rwa [Nat.add_zero] at h
    rw [h1, h2]
    norm_num

/-- C4 witness: saturation evaluated at the concrete offset k = 1. -/
theorem twos_complement_saturation_witness :
    (0 : ℤ) < 1 ∧
    (convert_to_twos_complement_24_bit (0x7fffff + 1) = 0x7fffff ∧
     convert_to_twos_complement_24_bit (-0x800000 - 1) =
       convert_to_twos_complement_24_bit (-0x800000) ∧
     convert_from_twos_complement_24_bit
       (convert_to_twos_complement_24_bit (-0x800000 - 1)) = -0x800000) :=
  ⟨by decide, twos_complement_saturation 1 (by decide)⟩

/-- Modelled from the spec (section 4.2): the statistical median — sort
ascending; if the count is odd return the middle element; if even return the
arithmetic mean of the two elements adjacent to the midpoint. -/
def medianSpec (l : List ℚ) : ℚ :=
  let sorted := sortAsc l
  if l.length % 2 = 1 then sorted.getD (l.length / 2) 0
  else (sorted.getD (l.length / 2 - 1) 0 + sorted.getD (l.length / 2) 0) / 2

/-- Modelled from the spec (section 4.2): the trimmed mean — sort ascending,
compute `trim = floor(n * 0.2)`, drop the first `trim` and the last `trim`
elements, and return the arithmetic mean of the remainder. -/
def trimmedMeanSpec (l : List ℚ) : ℚ :=
  let sorted := sortAsc l
  let trim := pyTrim l.length
  let kept := (sorted.drop trim).take (l.length - 2 * trim)
  kept.sum / (kept.length : ℚ)

namespace HW

/-- Object state of the hardware-backed `HX711` class (src/hx711.py).
GPIO pin numbers and the thread lock are external resources and not part of
the observable state; `idx` is the position of the next unread element of the
raw-sample stream (see the module comment). -/
structure State where
  gain : ℤ
  reference_unit : ℚ
  reference_unit_b : ℚ
  offset : ℚ
  offset_b : ℚ
  last_val : ℚ
  byte_format : String
  bit_format : String
  idx : ℕ
deriving DecidableEq

/-- `HX711.read_long` (src/hx711.py): acquire one raw sample.  The byte/bit
assembly over GPIO is the abstracted sample source; the sample value is the
next element of the stream.  Records `last_val` as the source does. -/
def read_long (s : ℕ → ℚ) (st : State) : ℚ × State :=
  let v := s st.idx
  (v, { st with idx := st.idx + 1, last_val := v })

/-- The `for _ in range(times): value_list += [self.read_long()]` loop shared
by `read_average` and `read_median`: acquire `n` samples in order. -/
def read_list : ℕ → (ℕ → ℚ) → State → List ℚ × State
  | 0, _, st => ([], st)
  | Nat.succ n, s, st =>
      let p := read_long s st
      let q := read_list n s p.2
      (p.1 :: q.1, q.2)

/-- `HX711.read_median` (src/hx711.py lines 193-216). -/
def read_median (times : ℤ) (s : ℕ → ℚ) (st : State) : Except String ℚ × State :=
  if times ≤ 0 then
    (Except.error "HX711::read_median(): times must be greater than zero!", st)
  else if times = 1 then
    let p := read_long s st
    (Except.ok p.1, p.2)
  else
    let q := read_list times.toNat s st
    let value_list := sortAsc q.1
    if times % 2 = 1 then
      (Except.ok (value_list.getD (value_list.length / 2) 0), q.2)
    else
      -- midpoint = int(len(value_list) / 2); sum(value_list[midpoint-1:midpoint+1]) / 2.0
      let midpoint := value_list.length / 2
      (Except.ok (((value_list.drop (midpoint - 1)).take 2).sum / 2), q.2)

/-- `HX711.read_average` (src/hx711.py lines 158-188).  The trim amount
`int(len(value_list) * 0.2)` is `pyTrim`, and the slice
`value_list[trim_amount:-trim_amount]` keeps `len - 2*trim` elements starting
at position `trim` (here `trim_amount ≥ 1` because `times ≥ 5`). -/
def read_average (times : ℤ) (s : ℕ → ℚ) (st : State) : Except String ℚ × State :=
  if times ≤ 0 then
    (Except.error "HX711()::read_average(): times must >= 1!!", st)
  else if times = 1 then
    let p := read_long s st
    (Except.ok p.1, p.2)
  else if times < 5 then
    read_median times s st
  else
    let q := read_list times.toNat s st
    let value_list := sortAsc q.1
    let trim_amount := pyTrim value_list.length
    let trimmed := (value_list.drop trim_amount).take
      (value_list.length - trim_amount - trim_amount)
    (Except.ok (trimmed.sum / (trimmed.length : ℚ)), q.2)

/-- `HX711.get_gain` (src/hx711.py lines 64-73). -/
def get_gain (st : State) : ℤ :=
  if st.gain = 1 then 128
  else if st.gain = 3 then 64
  else if st.gain = 2 then 32
  else 0

/-- `HX711.set_gain` (src/hx711.py lines 51-62): store the pulse-count code
for a recognized gain (an unrecognized gain leaves the code untouched), then
perform one acquisition-and-discard (`read_raw_bytes`), which consumes one
element of the sample stream. -/
def set_gain (gain : ℤ) (_s : ℕ → ℚ) (st : State) : State :=
  let st1 :=
    if gain = 128 then { st with gain := 1 }
    else if gain = 64 then { st with gain := 3 }
    else if gain = 32 then { st with gain := 2 }
    else st
  { st1 with idx := st1.idx + 1 }

/-- `HX711.get_offset_a` (src/hx711.py). -/
def get_offset_a (st : State) : ℚ := st.offset

/-- `HX711.get_offset_b` (src/hx711.py). -/
def get_offset_b (st : State) : ℚ := st.offset_b

/-- `HX711.set_offset_a` (src/hx711.py). -/
def set_offset_a (offset : ℚ) (st : State) : State := { st with offset := offset }

/-- `HX711.set_offset_b` (src/hx711.py). -/
def set_offset_b (offset : ℚ) (st : State) : State := { st with offset_b := offset }

/-- `HX711.get_reference_unit_a` (src/hx711.py). -/
def get_reference_unit_a (st : State) : ℚ := st.reference_unit

/-- `HX711.get_reference_unit_b` (src/hx711.py). -/
def get_reference_unit_b (st : State) : ℚ := st.reference_unit_b

/-- `HX711.set_reference_unit_a` (src/hx711.py lines 329-335): reject 0,
otherwise store the value for channel A. -/
def set_reference_unit_a (reference_unit : ℚ) (st : State) : Except String Unit × State :=
  if reference_unit = 0 then
    (Except.error "HX711::set_reference_unit_A() can not accept 0 as a reference unit!", st)
  else
    (Except.ok (), { st with reference_unit := reference_unit })

/-- `HX711.set_reference_unit_b` (src/hx711.py lines 337-343); the source
reuses the channel-A error message. -/
def set_reference_unit_b (reference_unit : ℚ) (st : State) : Except String Unit × State :=
  if reference_unit = 0 then
    (Except.error "HX711::set_reference_unit_A() can not accept 0 as a reference unit!", st)
  else
    (Except.ok (), { st with reference_unit_b := reference_unit })

/-- `HX711.set_reference_unit` (src/hx711.py): channel-A compatibility alias. -/
def set_reference_unit (reference_unit : ℚ) (st : State) : Except String Unit × State :=
  set_reference_unit_a reference_unit st

end HW

namespace HW

/-- `allowed_formats` in `HX711.set_reading_format` (src/hx711.py). -/
def allowed_formats : List String := ["LSB", "MSB"]

/-- `HX711.set_reading_format` (src/hx711.py lines 292-305).  The
`isinstance(_, str)` guards always pass in this typed model.  Note the source
assigns `byte_format` before validating `bit_format`. -/
def set_reading_format (byte_format bit_format : String) (st : State) :
    Except String Unit × State :=
  if (pyUpper byte_format) ∈ allowed_formats then
    let st1 := { st with byte_format := byte_format }
    if (pyUpper bit_format) ∈ allowed_formats then
      (Except.ok (), { st1 with bit_format := bit_format })
    else
      (Except.error ("Unrecognised bitformat: \"" ++ bit_format ++ "\""), st1)
  else
    (Except.error ("Unrecognised byte_format: \"" ++ byte_format ++ "\""), st)

/-- `HX711.get_value_a` (src/hx711.py lines 223-224). -/
def get_value_a (times : ℤ) (s : ℕ → ℚ) (st : State) : Except String ℚ × State :=
  match read_median times s st with
  | (Except.error e, st1) => (Except.error e, st1)
  | (Except.ok v, st1) => (Except.ok (v - get_offset_a st1), st1)

/-- `HX711.get_value` (src/hx711.py): channel-A compatibility alias. -/
def get_value (times : ℤ) (s : ℕ → ℚ) (st : State) : Except String ℚ × State :=
  get_value_a times s st

/-- `HX711.get_value_b` (src/hx711.py lines 226-232): back up the gain,
force gain 32 (channel B), read, then restore the prior gain. -/
def get_value_b (times : ℤ) (s : ℕ → ℚ) (st : State) : Except String ℚ × State :=
  let g := get_gain st
  let st1 := set_gain 32 s st
  match read_median times s st1 with
  | (Except.error e, st2) => (Except.error e, st2)
  | (Except.ok v, st2) =>
      let value := v - get_offset_b st2
      let st3 := set_gain g s st2
      (Except.ok value, st3)

/-- `HX711.get_weight_A` (src/hx711.py lines 238-241). -/
def get_weight_A (times : ℤ) (s : ℕ → ℚ) (st : State) : Except String ℚ × State :=
  match get_value_a times s st with
  | (Except.error e, st1) => (Except.error e, st1)
  | (Except.ok v, st1) => (Except.ok (v / st1.reference_unit), st1)

/-- `HX711.get_weight` (src/hx711.py): channel-A compatibility alias. -/
def get_weight (times : ℤ) (s : ℕ → ℚ) (st : State) : Except String ℚ × State :=
  get_weight_A times s st

/-- `HX711.get_weight_B` (src/hx711.py lines 243-246). -/
def get_weight_B (times : ℤ) (s : ℕ → ℚ) (st : State) : Except String ℚ × State :=
  match get_value_b times s st with
  | (Except.error e, st1) => (Except.error e, st1)
  | (Except.ok v, st1) => (Except.ok (v / st1.reference_unit_b), st1)

/-- `HX711.tare_a` (src/hx711.py lines 253-268). -/
def tare_a (times : ℤ) (s : ℕ → ℚ) (st : State) : Except String ℚ × State :=
  let backup_reference_unit := get_reference_unit_a st
  match set_reference_unit_a 1 st with
  | (Except.error e, st1) => (Except.error e, st1)
  | (Except.ok _, st1) =>
      match read_average times s st1 with
      | (Except.error e, st2) => (Except.error e, st2)
      | (Except.ok value, st2) =>
          let st3 := set_offset_a value st2
          match set_reference_unit_a backup_reference_unit st3 with
          | (Except.error e, st4) => (Except.error e, st4)
          | (Except.ok _, st4) => (Except.ok value, st4)

/-- `HX711.tare` (src/hx711.py): channel-A compatibility alias. -/
def tare (times : ℤ) (s : ℕ → ℚ) (st : State) : Except String ℚ × State :=
  tare_a times s st

/-- `HX711.tare_B` (src/hx711.py lines 270-290): back up the channel-B
reference unit and the gain, force gain 32, read, store the offset, then
restore gain and reference unit. -/
def tare_B (times : ℤ) (s : ℕ → ℚ) (st : State) : Except String ℚ × State :=
  let backup_reference_unit := get_reference_unit_b st
  match set_reference_unit_b 1 st with
  | (Except.error e, st1) => (Except.error e, st1)
  | (Except.ok _, st1) =>
      let backup_gain := get_gain st1
      let st2 := set_gain 32 s st1
      match read_average times s st2 with
      | (Except.error e, st3) => (Except.error e, st3)
      | (Except.ok value, st3) =>
          let st4 := set_offset_b value st3
          let st5 := set_gain backup_gain s st4
          match set_reference_unit_b backup_reference_unit st5 with
          | (Except.error e, st6) => (Except.error e, st6)
          | (Except.ok _, st6) => (Except.ok value, st6)

/-- `HX711.__init__` (src/hx711.py lines 11-43): field defaults followed by
the constructor's `set_gain(gain)` call (GPIO setup is external). -/
def initState (gain : ℤ) (s : ℕ → ℚ) : State :=
  set_gain gain s
    { gain := 0
      reference_unit := 1
      reference_unit_b := 1
      offset := 1
      offset_b := 1
      last_val := 0
      byte_format := "MSB"
      bit_format := "MSB"
      idx := 0 }

end HW

namespace Emu

/-- Object state of the simulated `HX711` class (src/emulated_hx711.py).
The wall-clock fields (`last_read_time`, `sample_rate_hz`, `reset_timestamp`,
`sample_count`, `simulate_tare`) drive only the fake sample generator, which
is abstracted as the sample stream; `idx` is the position of the next sample
the generator will produce. -/
structure State where
  gain : ℤ
  reference_unit : ℚ
  offset : ℚ
  last_val : ℚ
  byte_format : String
  bit_format : String
  idx : ℕ
deriving DecidableEq

/-- `HX711.read_long` (src/emulated_hx711.py): acquire one generated sample
(the encode/split/reassemble/decode path through `read_raw_bytes` is the
abstracted sample source).  Records `last_val` as the source does. -/
def read_long (s : ℕ → ℚ) (st : State) : ℚ × State :=
  let v := s st.idx
  (v, { st with idx := st.idx + 1, last_val := v })

/-- The sample-collection loop of `read_average` (src/emulated_hx711.py):
acquire `n` samples in order. -/
def read_list : ℕ → (ℕ → ℚ) → State → List ℚ × State
  | 0, _, st => ([], st)
  | Nat.succ n, s, st =>
      let p := read_long s st
      let q := read_list n s p.2
      (p.1 :: q.1, q.2)

/-- `HX711.read_average` (src/emulated_hx711.py lines 145-180).  A
non-positive count prints a warning and is clamped to 1; for `2 ≤ times < 5`
the result is the plain arithmetic mean of the samples; for `times ≥ 5` it is
the trimmed mean, exactly as in the hardware-backed class. -/
def read_average (times : ℤ) (s : ℕ → ℚ) (st : State) : ℚ × State :=
  let times := if times ≤ 0 then 1 else times
  if times = 1 then
    read_long s st
  else if times < 5 then
    let q := read_list times.toNat s st
    (q.1.sum / (times : ℚ), q.2)
  else
    let q := read_list times.toNat s st
    let value_list := sortAsc q.1
    let trim_amount := pyTrim value_list.length
    let trimmed := (value_list.drop trim_amount).take
      (value_list.length - trim_amount - trim_amount)
    (trimmed.sum / (trimmed.length : ℚ), q.2)

/-- `HX711.get_value` (src/emulated_hx711.py lines 182-183). -/
def get_value (times : ℤ) (s : ℕ → ℚ) (st : State) : ℚ × State :=
  let p := read_average times s st
  (p.1 - p.2.offset, p.2)

/-- `HX711.get_weight` (src/emulated_hx711.py lines 185-188). -/
def get_weight (times : ℤ) (s : ℕ → ℚ) (st : State) : ℚ × State :=
  let p := get_value times s st
  (p.1 / p.2.reference_unit, p.2)

/-- `HX711.get_gain` (src/emulated_hx711.py lines 83-92). -/
def get_gain (st : State) : ℤ :=
  if st.gain = 1 then 128
  else if st.gain = 3 then 64
  else if st.gain = 2 then 32
  else 0

/-- `HX711.set_gain` (src/emulated_hx711.py lines 72-81): store the
pulse-count code for a recognized gain, then read and discard one sample. -/
def set_gain (gain : ℤ) (_s : ℕ → ℚ) (st : State) : State :=
  let st1 :=
    if gain = 128 then { st with gain := 1 }
    else if gain = 64 then { st with gain := 3 }
    else if gain = 32 then { st with gain := 2 }
    else st
  { st1 with idx := st1.idx + 1 }

/-- `HX711.set_offset` (src/emulated_hx711.py). -/
def set_offset (offset : ℚ) (st : State) : State := { st with offset := offset }

/-- `HX711.get_offset` (src/emulated_hx711.py). -/
def get_offset (st : State) : ℚ := st.offset

/-- `HX711.set_reference_unit` (src/emulated_hx711.py lines 233-239): a zero
reference unit prints a warning (returned here as the message) and leaves the
state untouched; otherwise the value is stored. -/
def set_reference_unit (reference_unit : ℚ) (st : State) : Option String × State :=
  if reference_unit = 0 then
    (some "HX711().set_reference_unit(): Can not use 0 as a reference unit!!", st)
  else
    (none, { st with reference_unit := reference_unit })

/-- `HX711.set_reading_format` (src/emulated_hx711.py lines 211-225): each
field is updated when its argument is one of the recognized values and left
untouched (with a printed warning, returned here) otherwise. -/
def set_reading_format (byte_format bit_format : String) (st : State) :
    List String × State :=
  let p1 :=
    if byte_format = "LSB" then (([] : List String), { st with byte_format := byte_format })
    else if byte_format = "MSB" then (([] : List String), { st with byte_format := byte_format })
    else (["Unrecognised byte_format: \"" ++ byte_format ++ "\""], st)
  let p2 :=
    if bit_format = "LSB" then (([] : List String), { p1.2 with bit_format := bit_format })
    else if bit_format = "MSB" then (([] : List String), { p1.2 with bit_format := bit_format })
    else (["Unrecognised bit_format: \"" ++ bit_format ++ "\""], p1.2)
  (p1.1 ++ p2.1, p2.2)

/-- `HX711.__init__` (src/emulated_hx711.py lines 10-42): field defaults
followed by the constructor's `set_gain(gain)` call. -/
def initState (gain : ℤ) (s : ℕ → ℚ) : State :=
  set_gain gain s
    { gain := 0
      reference_unit := 1
      offset := 1
      last_val := 0
      byte_format := "MSB"
      bit_format := "MSB"
      idx := 0 }

end Emu

theorem sortAsc_length (l : List ℚ) : (sortAsc l).length = l.length :=
  List.length_insertionSort _ l

theorem take_two_drop_sum (l : List ℚ) (k : ℕ) (h : k + 1 < l.length) :
    ((l.drop k).take 2).sum = l.getD k 0 + l.getD (k + 1) 0 := by
  rw [List.drop_eq_getElem_cons (show k < l.length by omega),
    List.drop_eq_getElem_cons (show k + 1 < l.length by omega),
    List.getD_eq_getElem l 0 (show k < l.length by omega),
    List.getD_eq_getElem l 0 (show k + 1 < l.length by omega)]
  rw [show ∀ (a b : ℚ) (t : List ℚ), (a :: b :: t).take 2 = [a, b] from fun a b t => rfl]
  rw [List.sum_cons, List.sum_cons, List.sum_nil, add_zero]

namespace HW

/-- The calibration-and-configuration part of the state: every field except
the sample-stream position and the last sample value. -/
def State.calib (st : State) : ℤ × ℚ × ℚ × ℚ × ℚ × String × String :=
  (st.gain, st.reference_unit, st.reference_unit_b, st.offset, st.offset_b,
   st.byte_format, st.bit_format)

theorem hw_read_list_len (n : ℕ) (s : ℕ → ℚ) (st : State) :
    (read_list n s st).1.length = n := by
  induction n generalizing st with
  | zero => rfl
  | succ n ih => simp [read_list, ih]

theorem hw_read_list_calib (n : ℕ) (s : ℕ → ℚ) (st : State) :
    (read_list n s st).2.calib = st.calib := by
  induction n generalizing st with
  | zero => rfl
  | succ n ih =>
      have h := ih { st with idx := st.idx + 1, last_val := s st.idx }
      simpa [read_list, read_long] using h

theorem read_median_ok (times : ℤ) (s : ℕ → ℚ) (st : State) (h : 1 ≤ times) :
    ∃ v st1, read_median times s st = (Except.ok v, st1) ∧ st1.calib = st.calib := by
  unfold read_median
  rw [if_neg (by omega)]
  by_cases h1 : times = 1
  · rw [if_pos h1]
    exact ⟨_, _, rfl, rfl⟩
  · rw [if_neg h1]
    by_cases hodd : times % 2 = 1
    · rw [if_pos hodd]
      exact ⟨_, _, rfl, hw_read_list_calib _ _ _⟩
    · rw [if_neg hodd]
      exact ⟨_, _, rfl, hw_read_list_calib _ _ _⟩

theorem read_average_ok (times : ℤ) (s : ℕ → ℚ) (st : State) (h : 1 ≤ times) :
    ∃ v st1, read_average times s st = (Except.ok v, st1) ∧ st1.calib = st.calib := by
  unfold read_average
  rw [if_neg (by omega)]
  by_cases h1 : times = 1
  · rw [if_pos h1]
    exact ⟨_, _, rfl, rfl⟩
  · rw [if_neg h1]
    by_cases h5 : times < 5
    · rw [if_pos h5]
      exact read_median_ok times s st h
    · rw [if_neg h5]
      exact ⟨_, _, rfl, hw_read_list_calib _ _ _⟩

theorem get_gain_congr (a b : State) (h : a.gain = b.gain) : get_gain a = get_gain b := by
  simp [get_gain, h]

theorem hw_get_gain_set_gain (v : ℤ) (s : ℕ → ℚ) (st : State)
    (h : v = 128 ∨ v = 64 ∨ v = 32) : get_gain (set_gain v s st) = v := by
  rcases h with h | h | h <;> subst h <;> simp [set_gain, get_gain]

theorem hw_set_gain_invalid (v : ℤ) (s : ℕ → ℚ) (st : State)
    (h128 : v ≠ 128) (h64 : v ≠ 64) (h32 : v ≠ 32) :
    (set_gain v s st).gain = st.gain := by
  simp [set_gain, if_neg h128, if_neg h64, if_neg h32]

end HW

namespace Emu

/-- The calibration-and-configuration part of the simulated state. -/
def State.calib (st : State) : ℤ × ℚ × ℚ × String × String :=
  (st.gain, st.reference_unit, st.offset, st.byte_format, st.bit_format)

theorem emu_read_list_len (n : ℕ) (s : ℕ → ℚ) (st : State) :
    (read_list n s st).1.length = n := by
  induction n generalizing st with
  | zero => rfl
  | succ n ih => simp [read_list, ih]

theorem emu_read_list_calib (n : ℕ) (s : ℕ → ℚ) (st : State) :
    (read_list n s st).2.calib = st.calib := by
  induction n generalizing st with
  | zero => rfl
  | succ n ih =>
      have h := ih { st with idx := st.idx + 1, last_val := s st.idx }
      simpa [read_list, read_long] using h

theorem read_average_calib (times : ℤ) (s : ℕ → ℚ) (st : State) :
    (read_average times s st).2.calib = st.calib := by
  unfold read_average
  by_cases h1 : (if times ≤ 0 then 1 else times) = 1
  · rw [if_pos h1]
    rfl
  · rw [if_neg h1]
    by_cases h5 : (if times ≤ 0 then 1 else times) < 5
    · rw [if_pos h5]
      exact emu_read_list_calib _ _ _
    · rw [if_neg h5]
      exact emu_read_list_calib _ _ _

theorem emu_get_gain_set_gain (v : ℤ) (s : ℕ → ℚ) (st : State)
    (h : v = 128 ∨ v = 64 ∨ v = 32) : get_gain (set_gain v s st) = v := by
  rcases h with h | h | h <;> subst h <;> simp [set_gain, get_gain]

theorem emu_set_gain_invalid (v : ℤ) (s : ℕ → ℚ) (st : State)
    (h128 : v ≠ 128) (h64 : v ≠ 64) (h32 : v ≠ 32) :
    (set_gain v s st).gain = st.gain := by
  simp [set_gain, if_neg h128, if_neg h64, if_neg h32]

end Emu

/-- A constant raw-sample stream used to evaluate theorems on concrete runs. -/
def sConst : ℕ → ℚ := fun _ => 5

/-- A concrete hardware driver state (gain code 1 = gain 128, fresh
calibration fields, stream position 0). -/
def hwStA : HW.State :=
  { gain := 1
    reference_unit := 1
    reference_unit_b := 1
    offset := 1
    offset_b := 1
    last_val := 0
    byte_format := "MSB"
    bit_format := "MSB"
    idx := 0 }

/-- A concrete simulated driver state. -/
def emuStA : Emu.State :=
  { gain := 1
    reference_unit := 1
    offset := 1
    last_val := 0
    byte_format := "MSB"
    bit_format := "MSB"
    idx := 0 }

/-- C5: in the hardware-backed implementation, for every sample count
times ≤ 0 both `read_average` and `read_median` raise a `ValueError`
(modelled as `Except.error`) and the state is returned unchanged — in
particular the stream position `idx` is unchanged, so no sample acquisition
is performed. -/
theorem nonpositive_times_fail_loudly (times : ℤ) (s : ℕ → ℚ) (st : HW.State)
    (h : times ≤ 0) :
    HW.read_average times s st =
      (Except.error "HX711()::read_average(): times must >= 1!!", st) ∧
    HW.read_median times s st =
      (Except.error "HX711::read_median(): times must be greater than zero!", st) := by
  constructor
  · unfold HW.read_average
    rw [if_pos h]
  · unfold HW.read_median
    rw [if_pos h]

/-- C5 witness: the failure evaluated at count 0 on a concrete state. -/
theorem nonpositive_times_fail_loudly_witness :
    (0 : ℤ) ≤ 0 ∧
    (HW.read_average 0 sConst hwStA =
       (Except.error "HX711()::read_average(): times must >= 1!!", hwStA) ∧
     HW.read_median 0 sConst hwStA =
       (Except.error "HX711::read_median(): times must be greater than zero!", hwStA)) :=
  ⟨le_refl 0, nonpositive_times_fail_loudly 0 sConst hwStA (le_refl 0)⟩

/-- C6: for every prior state, `set_reference_unit(0)` (both hardware
channel variants, and the simulated variant) signals an error and leaves the
stored reference unit untouched, while any v ≠ 0 is stored for the addressed
channel. -/
theorem set_reference_unit_zero_rejected (st : HW.State) (est : Emu.State)
    (v : ℚ) (hv : v ≠ 0) :
    HW.set_reference_unit_a 0 st =
      (Except.error "HX711::set_reference_unit_A() can not accept 0 as a reference unit!", st) ∧
    HW.set_reference_unit_b 0 st =
      (Except.error "HX711::set_reference_unit_A() can not accept 0 as a reference unit!", st) ∧
    Emu.set_reference_unit 0 est =
      (some "HX711().set_reference_unit(): Can not use 0 as a reference unit!!", est) ∧
    HW.set_reference_unit_a v st = (Except.ok (), { st with reference_unit := v }) ∧
    HW.set_reference_unit_b v st = (Except.ok (), { st with reference_unit_b := v }) ∧
    Emu.set_reference_unit v est = (none, { est with reference_unit := v }) := by
  refine ⟨?_, ?_, ?_, ?_, ?_, ?_⟩
  · unfold HW.set_reference_unit_a
    rw [if_pos rfl]
  · unfold HW.set_reference_unit_b
    rw [if_pos rfl]
  · unfold Emu.set_reference_unit
    rw [if_pos rfl]
  · unfold HW.set_reference_unit_a
    rw [if_neg hv]
  · unfold HW.set_reference_unit_b
    rw [if_neg hv]
  · unfold Emu.set_reference_unit
    rw [if_neg hv]

/-- C6 witness: evaluated at concrete states and the non-zero value 2. -/
theorem set_reference_unit_zero_rejected_witness :
    (2 : ℚ) ≠ 0 ∧
    (HW.set_reference_unit_a 0 hwStA =
       (Except.error "HX711::set_reference_unit_A() can not accept 0 as a reference unit!", hwStA) ∧
     HW.set_reference_unit_b 0 hwStA =
       (Except.error "HX711::set_reference_unit_A() can not accept 0 as a reference unit!", hwStA) ∧
     Emu.set_reference_unit 0 emuStA =
       (some "HX711().set_reference_unit(): Can not use 0 as a reference unit!!", emuStA) ∧
     HW.set_reference_unit_a 2 hwStA = (Except.ok (), { hwStA with reference_unit := 2 }) ∧
     HW.set_reference_unit_b 2 hwStA = (Except.ok (), { hwStA with reference_unit_b := 2 }) ∧
     Emu.set_reference_unit 2 emuStA = (none, { emuStA with reference_unit := 2 })) :=
  ⟨by norm_num, set_reference_unit_zero_rejected hwStA emuStA 2 (by norm_num)⟩

/-- C8: for v in {128, 64, 32}, `set_gain(v)` followed by `get_gain()`
returns v, in both implementations; any other input leaves the stored
gain/channel code unchanged. -/
theorem gain_round_trip (v : ℤ) (s es : ℕ → ℚ) (st : HW.State) (est : Emu.State) :
    (v = 128 ∨ v = 64 ∨ v = 32 →
      HW.get_gain (HW.set_gain v s st) = v ∧
      Emu.get_gain (Emu.set_gain v es est) = v) ∧
    (v ≠ 128 → v ≠ 64 → v ≠ 32 →
      (HW.set_gain v s st).gain = st.gain ∧
      (Emu.set_gain v es est).gain = est.gain) := by
  constructor
  · intro h
    exact ⟨HW.hw_get_gain_set_gain v s st h, Emu.emu_get_gain_set_gain v es est h⟩
  · intro h128 h64 h32
    exact ⟨HW.hw_set_gain_invalid v s st h128 h64 h32,
      Emu.emu_set_gain_invalid v es est h128 h64 h32⟩

/-- C8 witness: the round trip evaluated at the valid gain 64 and the
invalid gain 100. -/
theorem gain_round_trip_witness :
    ((64 : ℤ) = 128 ∨ (64 : ℤ) = 64 ∨ (64 : ℤ) = 32) ∧
    (HW.get_gain (HW.set_gain 64 sConst hwStA) = 64 ∧
     Emu.get_gain (Emu.set_gain 64 sConst emuStA) = 64) ∧
    (100 : ℤ) ≠ 128 ∧
    ((HW.set_gain 100 sConst hwStA).gain = hwStA.gain ∧
     (Emu.set_gain 100 sConst emuStA).gain = emuStA.gain) :=
  ⟨by norm_num,
   (gain_round_trip 64 sConst sConst hwStA emuStA).1 (by norm_num),
   by norm_num,
   (gain_round_trip 100 sConst sConst hwStA emuStA).2
     (by norm_num) (by norm_num) (by norm_num)⟩

theorem trimmed_agg_eq (L : List ℚ) :
    (((sortAsc L).drop (pyTrim (sortAsc L).length)).take
        ((sortAsc L).length - pyTrim (sortAsc L).length - pyTrim (sortAsc L).length)).sum /
      (((((sortAsc L).drop (pyTrim (sortAsc L).length)).take
        ((sortAsc L).length - pyTrim (sortAsc L).length - pyTrim (sortAsc L).length)).length : ℕ) : ℚ)
      = trimmedMeanSpec L := by
  unfold trimmedMeanSpec
  rw [sortAsc_length, Nat.sub_sub, ← two_mul]

/-- C2: for every sample count times ≥ 5, `read_average` returns the trimmed
mean of the acquired samples — sort ascending, trim `floor(n * 0.2)` from
each end, return the arithmetic mean of the remainder — in both the
hardware-backed and the simulated implementation. -/
theorem trimmed_mean_law (times : ℤ) (s es : ℕ → ℚ) (st : HW.State)
    (est : Emu.State) (h5 : 5 ≤ times) :
    (HW.read_average times s st).1 =
      Except.ok (trimmedMeanSpec (HW.read_list times.toNat s st).1) ∧
    (Emu.read_average times es est).1 =
      trimmedMeanSpec (Emu.read_list times.toNat es est).1 := by
  constructor
  · unfold HW.read_average
    rw [if_neg (show ¬ times ≤ 0 by omega), if_neg (show ¬ times = 1 by omega),
      if_neg (show ¬ times < 5 by omega)]
    exact congrArg Except.ok (trimmed_agg_eq _)
  · unfold Emu.read_average
    rw [if_neg (show ¬ times ≤ 0 by omega)]
    rw [if_neg (show ¬ times = 1 by omega), if_neg (show ¬ times < 5 by omega)]
    exact trimmed_agg_eq _

/-- The raw-sample stream 0, 1, 2, ... used by the trimmed-mean example. -/
def natStream : ℕ → ℚ := fun k => (k : ℚ)

theorem hw_read_list_fst (n : ℕ) (s : ℕ → ℚ) (st : HW.State) :
    (HW.read_list n s st).1 = (List.range n).map (fun k => s (st.idx + k)) := by
  induction n generalizing st with
  | zero => rfl
  | succ n ih =>
      rw [List.range_succ_eq_map]
      simp only [HW.read_list, HW.read_long, ih, List.map_cons, List.map_map,
        Function.comp, Nat.add_zero]
      congr 1
      apply List.map_congr_left
      intro k _
      simp only [Function.comp_apply]
      congr 1
      omega

theorem emu_read_list_fst (n : ℕ) (s : ℕ → ℚ) (st : Emu.State) :
    (Emu.read_list n s st).1 = (List.range n).map (fun k => s (st.idx + k)) := by
  induction n generalizing st with
  | zero => rfl
  | succ n ih =>
      rw [List.range_succ_eq_map]
      simp only [Emu.read_list, Emu.read_long, ih, List.map_cons, List.map_map,
        Function.comp, Nat.add_zero]
      congr 1
      apply List.map_congr_left
      intro k _
      simp only [Function.comp_apply]
      congr 1
      omega

theorem hw_read_list_ten :
    (HW.read_list (10 : ℤ).toNat natStream hwStA).1 =
      [0, 1, 2, 3, 4, 5, 6, 7, 8, 9] := by
  rw [show (10 : ℤ).toNat = 10 from rfl, hw_read_list_fst,
    show List.range 10 = [0, 1, 2, 3, 4, 5, 6, 7, 8, 9] from rfl]
  norm_num [natStream, hwStA]

theorem emu_read_list_ten :
    (Emu.read_list (10 : ℤ).toNat natStream emuStA).1 =
      [0, 1, 2, 3, 4, 5, 6, 7, 8, 9] := by
  rw [show (10 : ℤ).toNat = 10 from rfl, emu_read_list_fst,
    show List.range 10 = [0, 1, 2, 3, 4, 5, 6, 7, 8, 9] from rfl]
  norm_num [natStream, emuStA]

theorem trimmedMeanSpec_ten :
    trimmedMeanSpec [0, 1, 2, 3, 4, 5, 6, 7, 8, 9] = 9 / 2 := by
  have hsort : sortAsc [0, 1, 2, 3, 4, 5, 6, 7, 8, 9] =
      [0, 1, 2, 3, 4, 5, 6, 7, 8, 9] := by
    norm_num [sortAsc, List.insertionSort, List.orderedInsert]
  unfold trimmedMeanSpec
  rw [hsort]
  norm_num [pyTrim_eq_div_five]

/-- C2 witness: for n = 10 with reads [0,1,...,9] the trim is 2 and the
result is the mean of [2..7], namely 4.5 = 9/2. -/
theorem trimmed_mean_law_witness :
    (5 : ℤ) ≤ 10 ∧
    (HW.read_average 10 natStream hwStA).1 =
      Except.ok (trimmedMeanSpec (HW.read_list (10 : ℤ).toNat natStream hwStA).1) ∧
    (Emu.read_average 10 natStream emuStA).1 =
      trimmedMeanSpec (Emu.read_list (10 : ℤ).toNat natStream emuStA).1 ∧
    (HW.read_average 10 natStream hwStA).1 = Except.ok (9 / 2) ∧
    (Emu.read_average 10 natStream emuStA).1 = 9 / 2 :=
  ⟨by norm_num,
   (trimmed_mean_law 10 natStream natStream hwStA emuStA (by norm_num)).1,
   (trimmed_mean_law 10 natStream natStream hwStA emuStA (by norm_num)).2,
   by rw [(trimmed_mean_law 10 natStream natStream hwStA emuStA (by norm_num)).1,
        hw_read_list_ten, trimmedMeanSpec_ten],
   by rw [(trimmed_mean_law 10 natStream natStream hwStA emuStA (by norm_num)).2,
        emu_read_list_ten, trimmedMeanSpec_ten]⟩

theorem medianSpec_odd (l : List ℚ) (h : l.length % 2 = 1) :
    medianSpec l = (sortAsc l).getD (l.length / 2) 0 := by
  simp only [medianSpec]
  rw [if_pos h]

theorem medianSpec_even (l : List ℚ) (h : ¬ l.length % 2 = 1) :
    medianSpec l =
      ((sortAsc l).getD (l.length / 2 - 1) 0 + (sortAsc l).getD (l.length / 2) 0) / 2 := by
  simp only [medianSpec]
  rw [if_neg h]

/-- C1 (amended): for every sample count times with 2 ≤ times ≤ 4, the
hardware-backed `read_average` delegates to `read_median` and returns the
statistical median of the acquired samples (sort ascending, middle element
for odd counts, mean of the two elements adjacent to the midpoint for even
counts); the simulated implementation instead returns the plain arithmetic
mean of the samples on this range, so the two implementations do not satisfy
an identical aggregation contract there. -/
theorem small_count_median (times : ℤ) (s es : ℕ → ℚ) (st : HW.State)
    (est : Emu.State) (h2 : 2 ≤ times) (h4 : times ≤ 4) :
    (HW.read_average times s st).1 =
      Except.ok (medianSpec (HW.read_list times.toNat s st).1) ∧
    (Emu.read_average times es est).1 =
      (Emu.read_list times.toNat es est).1.sum / (times : ℚ) := by
  constructor
  · simp only [HW.read_average]
    rw [if_neg (show ¬ times ≤ 0 by omega), if_neg (show ¬ times = 1 by omega),
      if_pos (show times < 5 by omega)]
    simp only [HW.read_median]
    rw [if_neg (show ¬ times ≤ 0 by omega), if_neg (show ¬ times = 1 by omega)]
    have hlen : (HW.read_list times.toNat s st).1.length = times.toNat :=
      HW.hw_read_list_len _ _ _
    have hslen : (sortAsc (HW.read_list times.toNat s st).1).length = times.toNat := by
      rw [sortAsc_length, hlen]
    by_cases hodd : times % 2 = 1
    · rw [if_pos hodd]
      rw [medianSpec_odd _ (show (HW.read_list times.toNat s st).1.length % 2 = 1 by
        rw [hlen]; omega)]
      rw [hslen, hlen]
    · rw [if_neg hodd]
      rw [medianSpec_even _ (show ¬ (HW.read_list times.toNat s st).1.length % 2 = 1 by
        rw [hlen]; omega)]
      rw [hslen]
      rw [take_two_drop_sum (sortAsc (HW.read_list times.toNat s st).1)
        (times.toNat / 2 - 1) (by rw [hslen]; omega)]
      rw [hlen]
      rw [show times.toNat / 2 - 1 + 1 = times.toNat / 2 by omega]
  · simp only [Emu.read_average]
    rw [if_neg (show ¬ times ≤ 0 by omega)]
    rw [if_neg (show ¬ times = 1 by omega), if_pos (show times < 5 by omega)]

/-- The raw-sample stream 0, 0, 9, 0, 0, ... used by the median
counterexample. -/
def c1Stream : ℕ → ℚ := fun k => if k = 2 then 9 else 0

theorem emu_read_list_three :
    (Emu.read_list (3 : ℤ).toNat c1Stream emuStA).1 = [0, 0, 9] := by
  rw [show (3 : ℤ).toNat = 3 from rfl, emu_read_list_fst,
    show List.range 3 = [0, 1, 2] from rfl]
  norm_num [c1Stream, emuStA]

/-- C1 counterexample: the claim that the simulated implementation also
returns the statistical median for sample counts in [2,4] is false: with
three raw samples [0, 0, 9] the simulated `read_average` returns their
arithmetic mean 3, while the median of these samples is 0. -/
theorem small_count_median_counterexample :
    (Emu.read_average 3 c1Stream emuStA).1 = 3 ∧
    medianSpec (Emu.read_list (3 : ℤ).toNat c1Stream emuStA).1 = 0 ∧
    (Emu.read_average 3 c1Stream emuStA).1 ≠
      medianSpec (Emu.read_list (3 : ℤ).toNat c1Stream emuStA).1 := by
  have hsort : sortAsc [0, 0, 9] = ([0, 0, 9] : List ℚ) := by
    norm_num [sortAsc, List.insertionSort, List.orderedInsert]
  have hmed : medianSpec ([0, 0, 9] : List ℚ) = 0 := by
    rw [medianSpec_odd _ (by norm_num), hsort]
    norm_num [List.getD]
  have hmean : (Emu.read_average 3 c1Stream emuStA).1 = 3 := by
    simp only [Emu.read_average]
    rw [if_neg (show ¬ (3 : ℤ) ≤ 0 by norm_num),
      if_neg (show ¬ (3 : ℤ) = 1 by norm_num), if_pos (show (3 : ℤ) < 5 by norm_num)]
    rw [emu_read_list_three]
    norm_num
  refine ⟨hmean, by rw [emu_read_list_three]; exact hmed, ?_⟩
  rw [hmean, emu_read_list_three, hmed]
  norm_num

/-- C1 witness: the amended statement evaluated at times = 3 on concrete
streams and states. -/
theorem small_count_median_witness :
    (2 : ℤ) ≤ 3 ∧ (3 : ℤ) ≤ 4 ∧
    ((HW.read_average 3 sConst hwStA).1 =
       Except.ok (medianSpec (HW.read_list (3 : ℤ).toNat sConst hwStA).1) ∧
     (Emu.read_average 3 sConst emuStA).1 =
       (Emu.read_list (3 : ℤ).toNat sConst emuStA).1.sum / ((3 : ℤ) : ℚ)) :=
  ⟨by norm_num, by norm_num,
   small_count_median 3 sConst sConst hwStA emuStA (by norm_num) (by norm_num)⟩

/-- C7 counterexample: `set_reading_format` is not atomic in the
hardware-backed implementation: calling it with the recognized byte format
"LSB" and the unrecognized bit format "XYZ" is rejected, yet the stored
byte_format has already been changed from "MSB" to "LSB". -/
theorem set_reading_format_atomicity_counterexample :
    (HW.set_reading_format "LSB" "XYZ" hwStA).1 =
      Except.error ("Unrecognised bitformat: \"" ++ "XYZ" ++ "\"") ∧
    (HW.set_reading_format "LSB" "XYZ" hwStA).2.byte_format ≠ hwStA.byte_format := by
  constructor
  · simp only [HW.set_reading_format]
    rw [if_pos (show (pyUpper "LSB" ∈ HW.allowed_formats) by decide),
      if_neg (show ¬ (pyUpper "XYZ" ∈ HW.allowed_formats) by decide)]
  · simp only [HW.set_reading_format]
    rw [if_pos (show (pyUpper "LSB" ∈ HW.allowed_formats) by decide),
      if_neg (show ¬ (pyUpper "XYZ" ∈ HW.allowed_formats) by decide)]
    decide

/-- C7 (amended): `set_reading_format` validates and assigns field by field.
Hardware-backed: an unrecognized byte_format is rejected with the whole state
unchanged; a recognized byte_format is stored immediately, and only then is
bit_format validated, so a call with a recognized byte_format and an
unrecognized bit_format is rejected with the byte_format already applied
(partial mutation) and the bit_format unchanged; when both are recognized,
both are stored.  The simulated variant never raises: each recognized field
is applied independently and an unrecognized one only produces a warning. -/
theorem set_reading_format_behavior (byte_format bit_format : String)
    (st : HW.State) (est : Emu.State) :
    ((pyUpper byte_format) ∉ HW.allowed_formats →
      HW.set_reading_format byte_format bit_format st =
        (Except.error ("Unrecognised byte_format: \"" ++ byte_format ++ "\""), st)) ∧
    ((pyUpper byte_format) ∈ HW.allowed_formats →
      (pyUpper bit_format) ∉ HW.allowed_formats →
      HW.set_reading_format byte_format bit_format st =
        (Except.error ("Unrecognised bitformat: \"" ++ bit_format ++ "\""),
         { st with byte_format := byte_format })) ∧
    ((pyUpper byte_format) ∈ HW.allowed_formats →
      (pyUpper bit_format) ∈ HW.allowed_formats →
      HW.set_reading_format byte_format bit_format st =
        (Except.ok (), { st with byte_format := byte_format, bit_format := bit_format })) ∧
    ((Emu.set_reading_format byte_format bit_format est).2.byte_format =
       if byte_format = "LSB" ∨ byte_format = "MSB" then byte_format
       else est.byte_format) ∧
    ((Emu.set_reading_format byte_format bit_format est).2.bit_format =
       if bit_format = "LSB" ∨ bit_format = "MSB" then bit_format
       else est.bit_format) := by
  refine ⟨?_, ?_, ?_, ?_, ?_⟩
  · intro hb
    simp only [HW.set_reading_format]
    rw [if_neg hb]
  · intro hb hbit
    simp only [HW.set_reading_format]
    rw [if_pos hb, if_neg hbit]
  · intro hb hbit
    simp only [HW.set_reading_format]
    rw [if_pos hb, if_pos hbit]
  · simp only [Emu.set_reading_format]
    by_cases hb1 : byte_format = "LSB" <;> by_cases hb2 : byte_format = "MSB" <;>
      by_cases hc1 : bit_format = "LSB" <;> by_cases hc2 : bit_format = "MSB" <;>
      simp [hb1, hb2, hc1, hc2]
  · simp only [Emu.set_reading_format]
    by_cases hb1 : byte_format = "LSB" <;> by_cases hb2 : byte_format = "MSB" <;>
      by_cases hc1 : bit_format = "LSB" <;> by_cases hc2 : bit_format = "MSB" <;>
      simp [hb1, hb2, hc1, hc2]

/-- C7 witness: the amended behavior evaluated on concrete format strings. -/
theorem set_reading_format_behavior_witness :
    (pyUpper "LSB" ∈ HW.allowed_formats) ∧ (pyUpper "MSB" ∈ HW.allowed_formats) ∧
    HW.set_reading_format "LSB" "MSB" hwStA =
      (Except.ok (), { hwStA with byte_format := "LSB", bit_format := "MSB" }) ∧
    (pyUpper "ZZZ" ∉ HW.allowed_formats) ∧
    HW.set_reading_format "ZZZ" "MSB" hwStA =
      (Except.error ("Unrecognised byte_format: \"" ++ "ZZZ" ++ "\""), hwStA) :=
  ⟨by decide, by decide,
   (set_reading_format_behavior "LSB" "MSB" hwStA emuStA).2.2.1 (by decide) (by decide),
   by decide,
   (set_reading_format_behavior "ZZZ" "MSB" hwStA emuStA).1 (by decide)⟩

/-- C9: for every valid prior gain setting, `get_value_b(times)` and
`tare_B(times)` (with a positive sample count and the invariant that the
stored channel-B reference unit is non-zero) complete successfully,
temporarily forcing gain 32 for the acquisition, and on return `get_gain()`
equals its pre-call value; `tare_B` also leaves `reference_unit_b` equal to
its pre-call value. -/
theorem channel_b_restores_gain (times : ℤ) (s : ℕ → ℚ) (st : HW.State)
    (ht : 1 ≤ times)
    (hg : HW.get_gain st = 128 ∨ HW.get_gain st = 64 ∨ HW.get_gain st = 32)
    (hr : st.reference_unit_b ≠ 0) :
    (∃ v st1, HW.get_value_b times s st = (Except.ok v, st1) ∧
       HW.get_gain st1 = HW.get_gain st) ∧
    (∃ v st1, HW.tare_B times s st = (Except.ok v, st1) ∧
       HW.get_gain st1 = HW.get_gain st ∧
       st1.reference_unit_b = st.reference_unit_b) := by
  constructor
  · obtain ⟨v, st2, hok, -⟩ :=
      HW.read_median_ok times s (HW.set_gain 32 s st) ht
    refine ⟨v - HW.get_offset_b st2, HW.set_gain (HW.get_gain st) s st2, ?_, ?_⟩
    · simp only [HW.get_value_b]
      rw [hok]
    · exact HW.hw_get_gain_set_gain (HW.get_gain st) s st2 hg
  · obtain ⟨v, st3, hok, -⟩ :=
      HW.read_average_ok times s
        (HW.set_gain 32 s { st with reference_unit_b := 1 }) ht
    have hgg : HW.get_gain { st with reference_unit_b := (1 : ℚ) } =
        HW.get_gain st := HW.get_gain_congr _ _ rfl
    refine ⟨v, { HW.set_gain
        (HW.get_gain { st with reference_unit_b := (1 : ℚ) }) s
        (HW.set_offset_b v st3) with
      reference_unit_b := st.reference_unit_b }, ?_, ?_, ?_⟩
    · simp only [HW.tare_B, HW.get_reference_unit_b, HW.set_reference_unit_b]
      rw [if_neg (one_ne_zero : (1 : ℚ) ≠ 0)]
      simp only []
      rw [hok]
      simp only []
      rw [if_neg hr]
    · calc HW.get_gain { HW.set_gain
              (HW.get_gain { st with reference_unit_b := (1 : ℚ) }) s
              (HW.set_offset_b v st3) with
            reference_unit_b := st.reference_unit_b }
          = HW.get_gain (HW.set_gain
              (HW.get_gain { st with reference_unit_b := (1 : ℚ) }) s
              (HW.set_offset_b v st3)) := HW.get_gain_congr _ _ rfl
        _ = HW.get_gain { st with reference_unit_b := (1 : ℚ) } :=
            HW.hw_get_gain_set_gain _ s _ (by rw [hgg]; exact hg)
        _ = HW.get_gain st := hgg
    · rfl

/-- C9 witness: channel-B acquisition evaluated at times = 3 from a state
with gain 128. -/
theorem channel_b_restores_gain_witness :
    (1 : ℤ) ≤ 3 ∧
    (HW.get_gain hwStA = 128 ∨ HW.get_gain hwStA = 64 ∨ HW.get_gain hwStA = 32) ∧
    hwStA.reference_unit_b ≠ 0 ∧
    ((∃ v st1, HW.get_value_b 3 sConst hwStA = (Except.ok v, st1) ∧
        HW.get_gain st1 = HW.get_gain hwStA) ∧
     (∃ v st1, HW.tare_B 3 sConst hwStA = (Except.ok v, st1) ∧
        HW.get_gain st1 = HW.get_gain hwStA ∧
        st1.reference_unit_b = hwStA.reference_unit_b)) :=
  ⟨by norm_num, by decide, by decide,
   channel_b_restores_gain 3 sConst hwStA (by norm_num) (by decide) (by decide)⟩

theorem hw_initState_fields (g : ℤ) (s : ℕ → ℚ) :
    (HW.initState g s).reference_unit = 1 ∧
    (HW.initState g s).reference_unit_b = 1 ∧
    (HW.initState g s).offset = 1 ∧
    (HW.initState g s).offset_b = 1 := by
  by_cases h128 : g = 128
  · subst h128
    exact ⟨rfl, rfl, rfl, rfl⟩
  · by_cases h64 : g = 64
    · subst h64
      exact ⟨rfl, rfl, rfl, rfl⟩
    · by_cases h32 : g = 32
      · subst h32
        exact ⟨rfl, rfl, rfl, rfl⟩
      · simp [HW.initState, HW.set_gain, h128, h64, h32]

theorem emu_initState_fields (g : ℤ) (s : ℕ → ℚ) :
    (Emu.initState g s).reference_unit = 1 ∧ (Emu.initState g s).offset = 1 := by
  by_cases h128 : g = 128
  · subst h128
    exact ⟨rfl, rfl⟩
  · by_cases h64 : g = 64
    · subst h64
      exact ⟨rfl, rfl⟩
    · by_cases h32 : g = 32
      · subst h32
        exact ⟨rfl, rfl⟩
      · simp [Emu.initState, Emu.set_gain, h128, h64, h32]

/-- C10: a freshly constructed driver (any initial gain argument) starts
with offset and reference unit equal to 1 for each channel, in both
implementations; consequently, before any tare or set_offset call,
`get_value(times)` returns the aggregated raw reading minus 1, and
`get_weight(times)` returns that same value (division by the initial
reference unit 1). -/
theorem fresh_state_calibration (g times : ℤ) (s es : ℕ → ℚ) (ht : 1 ≤ times) :
    (HW.initState g s).offset = 1 ∧ (HW.initState g s).offset_b = 1 ∧
    (HW.initState g s).reference_unit = 1 ∧
    (HW.initState g s).reference_unit_b = 1 ∧
    (Emu.initState g es).offset = 1 ∧ (Emu.initState g es).reference_unit = 1 ∧
    (∃ v st1,
       HW.read_median times s (HW.initState g s) = (Except.ok v, st1) ∧
       HW.get_value times s (HW.initState g s) = (Except.ok (v - 1), st1) ∧
       HW.get_weight times s (HW.initState g s) = (Except.ok (v - 1), st1)) ∧
    ((Emu.get_value times es (Emu.initState g es)).1 =
       (Emu.read_average times es (Emu.initState g es)).1 - 1 ∧
     (Emu.get_weight times es (Emu.initState g es)).1 =
       (Emu.get_value times es (Emu.initState g es)).1) := by
  obtain ⟨hru, hrub, hoff, hoffb⟩ := hw_initState_fields g s
  obtain ⟨heru, heoff⟩ := emu_initState_fields g es
  obtain ⟨v, st1, hok, hcal⟩ := HW.read_median_ok times s (HW.initState g s) ht
  have hst1off : st1.offset = 1 := by
    have h := congrArg
      (fun p : ℤ × ℚ × ℚ × ℚ × ℚ × String × String => p.2.2.2.1) hcal
    simp only [HW.State.calib] at h
    rw [hoff] at h
    exact h
  have hst1ru : st1.reference_unit = 1 := by
    have h := congrArg
      (fun p : ℤ × ℚ × ℚ × ℚ × ℚ × String × String => p.2.1) hcal
    simp only [HW.State.calib] at h
    rw [hru] at h
    exact h
  have hvala : HW.get_value_a times s (HW.initState g s) = (Except.ok (v - 1), st1) := by
    simp only [HW.get_value_a]
    rw [hok]
    simp only []
    rw [show HW.get_offset_a st1 = (1 : ℚ) from hst1off]
  have hval : HW.get_value times s (HW.initState g s) = (Except.ok (v - 1), st1) := by
    simp only [HW.get_value]
    exact hvala
  have hwt : HW.get_weight times s (HW.initState g s) = (Except.ok (v - 1), st1) := by
    simp only [HW.get_weight, HW.get_weight_A]
    rw [hvala]
    simp only []
    rw [hst1ru, div_one]
  have hecal := Emu.read_average_calib times es (Emu.initState g es)
  have heoff1 : (Emu.read_average times es (Emu.initState g es)).2.offset = 1 := by
    have h := congrArg (fun p : ℤ × ℚ × ℚ × String × String => p.2.2.1) hecal
    simp only [Emu.State.calib] at h
    rw [heoff] at h
    exact h
  have heru1 :
      (Emu.read_average times es (Emu.initState g es)).2.reference_unit = 1 := by
    have h := congrArg (fun p : ℤ × ℚ × ℚ × String × String => p.2.1) hecal
    simp only [Emu.State.calib] at h
    rw [heru] at h
    exact h
  refine ⟨hoff, hoffb, hru, hrub, heoff, heru, ⟨v, st1, hok, hval, hwt⟩, ?_, ?_⟩
  · simp only [Emu.get_value]
    rw [heoff1]
  · simp only [Emu.get_weight, Emu.get_value]
    rw [heoff1, heru1, div_one]

/-- C10 witness: the fresh-state behavior evaluated for a driver constructed
with gain 128 and three samples per read. -/
theorem fresh_state_calibration_witness :
    (1 : ℤ) ≤ 3 ∧
    ((HW.initState 128 sConst).offset = 1 ∧ (HW.initState 128 sConst).offset_b = 1 ∧
     (HW.initState 128 sConst).reference_unit = 1 ∧
     (HW.initState 128 sConst).reference_unit_b = 1 ∧
     (Emu.initState 128 sConst).offset = 1 ∧
     (Emu.initState 128 sConst).reference_unit = 1 ∧
     (∃ v st1,
        HW.read_median 3 sConst (HW.initState 128 sConst) = (Except.ok v, st1) ∧
        HW.get_value 3 sConst (HW.initState 128 sConst) = (Except.ok (v - 1), st1) ∧
        HW.get_weight 3 sConst (HW.initState 128 sConst) = (Except.ok (v - 1), st1)) ∧
     ((Emu.get_value 3 sConst (Emu.initState 128 sConst)).1 =
        (Emu.read_average 3 sConst (Emu.initState 128 sConst)).1 - 1 ∧
      (Emu.get_weight 3 sConst (Emu.initState 128 sConst)).1 =
        (Emu.get_value 3 sConst (Emu.initState 128 sConst)).1)) :=
  ⟨by norm_num, fresh_state_calibration 128 3 sConst sConst (by norm_num)⟩
